import Mathlib

/-!
Verification of the `ssh2-config` host-parameter merge engine
(`src/params.rs`), embedded shallowly in Lean 4.

The Rust core consists of one record type `HostParams` — fourteen
independently optional connection settings — together with a single
mutating operation `HostParams::merge(&mut self, b: &Self)` that folds a
higher-precedence layer `b` into `self` field by field.  Every statement
of the Rust body has the shape

  if let Some(v) = b.field.clone() { self.field = Some(v); }

We embed the value types, the record, and the merge operation below, and
prove the algebraic and frame properties the specification states.
-/

/-- Embedding of `std::path::PathBuf`: for this core a path is an opaque
string of bytes; nothing in `params.rs` inspects its contents. -/
structure PathBuf where
  path : String
deriving DecidableEq, Repr

/-- Embedding of `std::time::Duration`: a pair of whole seconds and a
nanosecond remainder.  `merge` only copies durations, it never computes
with them, so the machine-width bounds of the Rust fields are irrelevant
here and both components are plain naturals. -/
structure Duration where
  secs : Nat
  nanos : Nat
deriving DecidableEq, Repr

/-- Embedding of the Rust struct `HostParams` (`src/params.rs`): the ssh
configuration parameters of one host rule.  Each Rust `Option<T>` field
becomes an `Option` of the embedded value type; `Vec<String>` becomes
`List String`, `usize` and `u16` become `Nat` (merge only copies them,
never computes with them). -/
structure HostParams where
  /-- Specifies to use the specified address on the local machine as the source address of the connection -/
  bind_address : Option String
  /-- Use the specified address on the local machine as the source address of the connection -/
  bind_interface : Option String
  /-- Specifies which algorithms are allowed for signing of certificates by certificate authorities -/
  ca_signature_algorithms : Option (List String)
  /-- Specifies a file from which the user certificate is read -/
  certificate_file : Option PathBuf
  /-- Specifies the ciphers allowed for protocol version 2 in order of preference -/
  ciphers : Option (List String)
  /-- Specifies whether to use compression -/
  compression : Option Bool
  /-- Specifies the number of attempts to make before exiting -/
  connection_attemps : Option Nat
  /-- Specifies the timeout used when connecting to the SSH server -/
  connect_timeout : Option Duration
  /-- Specifies the real host name to log into -/
  host_name : Option String
  /-- Specifies the MAC (message authentication code) algorithms in order of preference -/
  mac : Option (List String)
  /-- Specifies the signature algorithms that will be used for public key authentication -/
  pubkey_accepted_algorithms : Option (List String)
  /-- Specifies whether to try public key authentication using SSH keys -/
  pubkey_authentication : Option Bool
  /-- Specifies that a TCP port on the remote machine be forwarded over the secure channel -/
  remote_forward : Option Nat
  /-- Specifies whether to send TCP keepalives to the other side -/
  tcp_keep_alive : Option Bool
deriving DecidableEq, Repr

/-- The value `HostParams::default()` produced by the derived `Default`
implementation: every field is `None`. -/
def HostParams.default : HostParams :=
  { bind_address := none
    bind_interface := none
    ca_signature_algorithms := none
    certificate_file := none
    ciphers := none
    compression := none
    connection_attemps := none
    connect_timeout := none
    host_name := none
    mac := none
    pubkey_accepted_algorithms := none
    pubkey_authentication := none
    remote_forward := none
    tcp_keep_alive := none }

/-- The per-field action of `HostParams::merge`: the Rust statement
`if let Some(v) = b.field.clone() { self.field = Some(v); }` leaves the
field equal to `b.field` when that is `Some` and equal to the old
`self.field` otherwise. -/
def mergeOpt {α : Type} (a b : Option α) : Option α :=
  match b with
  | some v => some v
  | none => a

/-- Embedding of `HostParams::merge(&mut self, b: &Self)` as a function
from the pre-state of `self` and the (read-only) argument `b` to the
post-state of `self`: each of the fourteen fields is overridden exactly
when `b` sets it. -/
def HostParams.merge (self b : HostParams) : HostParams :=
  { bind_address := mergeOpt self.bind_address b.bind_address
    bind_interface := mergeOpt self.bind_interface b.bind_interface
    ca_signature_algorithms := mergeOpt self.ca_signature_algorithms b.ca_signature_algorithms
    certificate_file := mergeOpt self.certificate_file b.certificate_file
    ciphers := mergeOpt self.ciphers b.ciphers
    compression := mergeOpt self.compression b.compression
    connection_attemps := mergeOpt self.connection_attemps b.connection_attemps
    connect_timeout := mergeOpt self.connect_timeout b.connect_timeout
    host_name := mergeOpt self.host_name b.host_name
    mac := mergeOpt self.mac b.mac
    pubkey_accepted_algorithms := mergeOpt self.pubkey_accepted_algorithms b.pubkey_accepted_algorithms
    pubkey_authentication := mergeOpt self.pubkey_authentication b.pubkey_authentication
    remote_forward := mergeOpt self.remote_forward b.remote_forward
    tcp_keep_alive := mergeOpt self.tcp_keep_alive b.tcp_keep_alive }

/-- The mutable state visible to the body of `HostParams::merge`: the
receiver `self` (behind `&mut`) and the argument `b` (behind `&`). -/
structure MergeSt where
  self : HostParams
  b : HostParams
deriving DecidableEq, Repr

/-- Statement 1 of the merge body:
`if let Some(bind_address) = b.bind_address.clone() { self.bind_address = Some(bind_address); }` -/
def mergeStep1 (st : MergeSt) : MergeSt :=
  match st.b.bind_address with
  | some v => { st with self := { st.self with bind_address := some v } }
  | none => st

/-- Statement 2 of the merge body, for `bind_interface`. -/
def mergeStep2 (st : MergeSt) : MergeSt :=
  match st.b.bind_interface with
  | some v => { st with self := { st.self with bind_interface := some v } }
  | none => st

/-- Statement 3 of the merge body, for `ca_signature_algorithms`. -/
def mergeStep3 (st : MergeSt) : MergeSt :=
  match st.b.ca_signature_algorithms with
  | some v => { st with self := { st.self with ca_signature_algorithms := some v } }
  | none => st

/-- Statement 4 of the merge body, for `certificate_file`. -/
def mergeStep4 (st : MergeSt) : MergeSt :=
  match st.b.certificate_file with
  | some v => { st with self := { st.self with certificate_file := some v } }
  | none => st

/-- Statement 5 of the merge body, for `ciphers`. -/
def mergeStep5 (st : MergeSt) : MergeSt :=
  match st.b.ciphers with
  | some v => { st with self := { st.self with ciphers := some v } }
  | none => st

/-- Statement 6 of the merge body, for `compression`. -/
def mergeStep6 (st : MergeSt) : MergeSt :=
  match st.b.compression with
  | some v => { st with self := { st.self with compression := some v } }
  | none => st

/-- Statement 7 of the merge body, for `connection_attemps`. -/
def mergeStep7 (st : MergeSt) : MergeSt :=
  match st.b.connection_attemps with
  | some v => { st with self := { st.self with connection_attemps := some v } }
  | none => st

/-- Statement 8 of the merge body, for `connect_timeout`. -/
def mergeStep8 (st : MergeSt) : MergeSt :=
  match st.b.connect_timeout with
  | some v => { st with self := { st.self with connect_timeout := some v } }
  | none => st

/-- Statement 9 of the merge body, for `host_name`. -/
def mergeStep9 (st : MergeSt) : MergeSt :=
  match st.b.host_name with
  | some v => { st with self := { st.self with host_name := some v } }
  | none => st

/-- Statement 10 of the merge body, for `mac`. -/
def mergeStep10 (st : MergeSt) : MergeSt :=
  match st.b.mac with
  | some v => { st with self := { st.self with mac := some v } }
  | none => st

/-- Statement 11 of the merge body, for `pubkey_accepted_algorithms`. -/
def mergeStep11 (st : MergeSt) : MergeSt :=
  match st.b.pubkey_accepted_algorithms with
  | some v => { st with self := { st.self with pubkey_accepted_algorithms := some v } }
  | none => st

/-- Statement 12 of the merge body, for `pubkey_authentication`. -/
def mergeStep12 (st : MergeSt) : MergeSt :=
  match st.b.pubkey_authentication with
  | some v => { st with self := { st.self with pubkey_authentication := some v } }
  | none => st

/-- Statement 13 of the merge body, for `remote_forward`. -/
def mergeStep13 (st : MergeSt) : MergeSt :=
  match st.b.remote_forward with
  | some v => { st with self := { st.self with remote_forward := some v } }
  | none => st

/-- Statement 14 of the merge body, for `tcp_keep_alive`. -/
def mergeStep14 (st : MergeSt) : MergeSt :=
  match st.b.tcp_keep_alive with
  | some v => { st with self := { st.self with tcp_keep_alive := some v } }
  | none => st

/-- The body of `HostParams::merge` as the sequential composition of its
fourteen statements, acting on the state `⟨self, b⟩`. -/
def mergeImpl (st : MergeSt) : MergeSt :=
  mergeStep14 (mergeStep13 (mergeStep12 (mergeStep11 (mergeStep10
    (mergeStep9 (mergeStep8 (mergeStep7 (mergeStep6 (mergeStep5
      (mergeStep4 (mergeStep3 (mergeStep2 (mergeStep1 st)))))))))))))

/-- Names of the fourteen fields of `HostParams`, used to state per-field
properties uniformly. -/
inductive ParamField where
  | bind_address
  | bind_interface
  | ca_signature_algorithms
  | certificate_file
  | ciphers
  | compression
  | connection_attemps
  | connect_timeout
  | host_name
  | mac
  | pubkey_accepted_algorithms
  | pubkey_authentication
  | remote_forward
  | tcp_keep_alive
deriving DecidableEq, Repr, Fintype

/-- A value stored in some field of `HostParams`, tagged with its type so
that values of different fields can be compared in one statement. -/
inductive FieldVal where
  | str : String → FieldVal
  | strList : List String → FieldVal
  | path : PathBuf → FieldVal
  | bool : Bool → FieldVal
  | nat : Nat → FieldVal
  | dur : Duration → FieldVal
deriving DecidableEq, Repr

/-- Field-level read access: the current optional value of field `f` of
`p`, injected into `FieldVal`. -/
def HostParams.get (p : HostParams) (f : ParamField) : Option FieldVal :=
  match f with
  | .bind_address => p.bind_address.map .str
  | .bind_interface => p.bind_interface.map .str
  | .ca_signature_algorithms => p.ca_signature_algorithms.map .strList
  | .certificate_file => p.certificate_file.map .path
  | .ciphers => p.ciphers.map .strList
  | .compression => p.compression.map .bool
  | .connection_attemps => p.connection_attemps.map .nat
  | .connect_timeout => p.connect_timeout.map .dur
  | .host_name => p.host_name.map .str
  | .mac => p.mac.map .strList
  | .pubkey_accepted_algorithms => p.pubkey_accepted_algorithms.map .strList
  | .pubkey_authentication => p.pubkey_authentication.map .bool
  | .remote_forward => p.remote_forward.map .nat
  | .tcp_keep_alive => p.tcp_keep_alive.map .bool

/-- A concrete lower-precedence layer used in witnesses. -/
def sampleLow : HostParams :=
  { HostParams.default with
    host_name := some "fallback.example"
    compression := some true
    ciphers := some ["aes128-ctr", "aes192-ctr"]
    connect_timeout := some ⟨30, 0⟩ }

/-- A concrete higher-precedence layer used in witnesses. -/
def sampleHigh : HostParams :=
  { HostParams.default with
    host_name := some "192.168.1.2"
    compression := some false
    remote_forward := some 32 }

/-! ### Shared lemmas about the per-field action -/

/-- A layer that leaves a field unset leaves the field of the receiver
untouched. -/
theorem mergeOpt_none_right {α : Type} (a : Option α) : mergeOpt a none = a := rfl

/-- A layer that sets a field fully replaces the receiver field. -/
theorem mergeOpt_some_right {α : Type} (a : Option α) (v : α) :
    mergeOpt a (some v) = some v := rfl

/-- Merging a layer into an all-unset receiver copies the layer value. -/
theorem mergeOpt_none_left {α : Type} (b : Option α) : mergeOpt none b = b := by
  cases b <;> rfl

/-- Applying the same layer value twice equals applying it once. -/
theorem mergeOpt_idem {α : Type} (a b : Option α) :
    mergeOpt (mergeOpt a b) b = mergeOpt a b := by
  cases b <;> rfl

/-- The per-field action is associative. -/
theorem mergeOpt_assoc {α : Type} (a b c : Option α) :
    mergeOpt (mergeOpt a b) c = mergeOpt a (mergeOpt b c) := by
  cases c <;> rfl

/-- The per-field action commutes with mapping the stored value. -/
theorem mergeOpt_map {α β : Type} (g : α → β) (a b : Option α) :
    (mergeOpt a b).map g = mergeOpt (a.map g) (b.map g) := by
  cases b <;> rfl

/-- Master field-level description of merge: reading any field of the
merge result is the per-field action applied to the two read values. -/
theorem get_merge (p q : HostParams) (f : ParamField) :
    (p.merge q).get f = mergeOpt (p.get f) (q.get f) := by
  cases f <;> simp only [HostParams.get, HostParams.merge, mergeOpt_map]

/-- Reading any field of the all-unset record yields `none`. -/
theorem get_default (f : ParamField) : HostParams.default.get f = none := by
  cases f <;> rfl

/-- Two records that agree on every field read are equal. -/
theorem eq_of_get_eq (p q : HostParams)
    (h : ∀ f : ParamField, p.get f = q.get f) : p = q := by
  have hmap : ∀ {α : Type} (g : α → FieldVal) (a b : Option α),
      Function.Injective g → a.map g = b.map g → a = b := by
    intro α g a b hg hab
    cases a <;> cases b <;> simp_all
    exact hg hab
  cases p; cases q
  simp only [HostParams.mk.injEq]
  refine ⟨?_, ?_, ?_, ?_, ?_, ?_, ?_, ?_, ?_, ?_, ?_, ?_, ?_, ?_⟩
  · exact hmap _ _ _ (fun a b h => by simpa using h) (h .bind_address)
  · exact hmap _ _ _ (fun a b h => by simpa using h) (h .bind_interface)
  · exact hmap _ _ _ (fun a b h => by simpa using h) (h .ca_signature_algorithms)
  · exact hmap _ _ _ (fun a b h => by simpa using h) (h .certificate_file)
  · exact hmap _ _ _ (fun a b h => by simpa using h) (h .ciphers)
  · exact hmap _ _ _ (fun a b h => by simpa using h) (h .compression)
  · exact hmap _ _ _ (fun a b h => by simpa using h) (h .connection_attemps)
  · exact hmap _ _ _ (fun a b h => by simpa using h) (h .connect_timeout)
  · exact hmap _ _ _ (fun a b h => by simpa using h) (h .host_name)
  · exact hmap _ _ _ (fun a b h => by simpa using h) (h .mac)
  · exact hmap _ _ _ (fun a b h => by simpa using h) (h .pubkey_accepted_algorithms)
  · exact hmap _ _ _ (fun a b h => by simpa using h) (h .pubkey_authentication)
  · exact hmap _ _ _ (fun a b h => by simpa using h) (h .remote_forward)
  · exact hmap _ _ _ (fun a b h => by simpa using h) (h .tcp_keep_alive)

/-! ### Characterization of the statement-level embedding -/

/-- Statement 1 assigns `bind_address` of `self` and leaves `b` alone. -/
theorem mergeStep1_eq (st : MergeSt) :
    mergeStep1 st =
      ⟨{ st.self with bind_address := mergeOpt st.self.bind_address st.b.bind_address }, st.b⟩ := by
  cases h : st.b.bind_address <;> simp [mergeStep1, h, mergeOpt]

/-- Statement 2 assigns `bind_interface` of `self` and leaves `b` alone. -/
theorem mergeStep2_eq (st : MergeSt) :
    mergeStep2 st =
      ⟨{ st.self with bind_interface := mergeOpt st.self.bind_interface st.b.bind_interface }, st.b⟩ := by
  cases h : st.b.bind_interface <;> simp [mergeStep2, h, mergeOpt]

/-- Statement 3 assigns `ca_signature_algorithms` of `self` and leaves `b` alone. -/
theorem mergeStep3_eq (st : MergeSt) :
    mergeStep3 st =
      ⟨{ st.self with ca_signature_algorithms := mergeOpt st.self.ca_signature_algorithms st.b.ca_signature_algorithms }, st.b⟩ := by
  cases h : st.b.ca_signature_algorithms <;> simp [mergeStep3, h, mergeOpt]

/-- Statement 4 assigns `certificate_file` of `self` and leaves `b` alone. -/
theorem mergeStep4_eq (st : MergeSt) :
    mergeStep4 st =
      ⟨{ st.self with certificate_file := mergeOpt st.self.certificate_file st.b.certificate_file }, st.b⟩ := by
  cases h : st.b.certificate_file <;> simp [mergeStep4, h, mergeOpt]

/-- Statement 5 assigns `ciphers` of `self` and leaves `b` alone. -/
theorem mergeStep5_eq (st : MergeSt) :
    mergeStep5 st =
      ⟨{ st.self with ciphers := mergeOpt st.self.ciphers st.b.ciphers }, st.b⟩ := by
  cases h : st.b.ciphers <;> simp [mergeStep5, h, mergeOpt]

/-- Statement 6 assigns `compression` of `self` and leaves `b` alone. -/
theorem mergeStep6_eq (st : MergeSt) :
    mergeStep6 st =
      ⟨{ st.self with compression := mergeOpt st.self.compression st.b.compression }, st.b⟩ := by
  cases h : st.b.compression <;> simp [mergeStep6, h, mergeOpt]

/-- Statement 7 assigns `connection_attemps` of `self` and leaves `b` alone. -/
theorem mergeStep7_eq (st : MergeSt) :
    mergeStep7 st =
      ⟨{ st.self with connection_attemps := mergeOpt st.self.connection_attemps st.b.connection_attemps }, st.b⟩ := by
  cases h : st.b.connection_attemps <;> simp [mergeStep7, h, mergeOpt]

/-- Statement 8 assigns `connect_timeout` of `self` and leaves `b` alone. -/
theorem mergeStep8_eq (st : MergeSt) :
    mergeStep8 st =
      ⟨{ st.self with connect_timeout := mergeOpt st.self.connect_timeout st.b.connect_timeout }, st.b⟩ := by
  cases h : st.b.connect_timeout <;> simp [mergeStep8, h, mergeOpt]

/-- Statement 9 assigns `host_name` of `self` and leaves `b` alone. -/
theorem mergeStep9_eq (st : MergeSt) :
    mergeStep9 st =
      ⟨{ st.self with host_name := mergeOpt st.self.host_name st.b.host_name }, st.b⟩ := by
  cases h : st.b.host_name <;> simp [mergeStep9, h, mergeOpt]

/-- Statement 10 assigns `mac` of `self` and leaves `b` alone. -/
theorem mergeStep10_eq (st : MergeSt) :
    mergeStep10 st =
      ⟨{ st.self with mac := mergeOpt st.self.mac st.b.mac }, st.b⟩ := by
  cases h : st.b.mac <;> simp [mergeStep10, h, mergeOpt]

/-- Statement 11 assigns `pubkey_accepted_algorithms` of `self` and leaves `b` alone. -/
theorem mergeStep11_eq (st : MergeSt) :
    mergeStep11 st =
      ⟨{ st.self with pubkey_accepted_algorithms := mergeOpt st.self.pubkey_accepted_algorithms st.b.pubkey_accepted_algorithms }, st.b⟩ := by
  cases h : st.b.pubkey_accepted_algorithms <;> simp [mergeStep11, h, mergeOpt]

/-- Statement 12 assigns `pubkey_authentication` of `self` and leaves `b` alone. -/
theorem mergeStep12_eq (st : MergeSt) :
    mergeStep12 st =
      ⟨{ st.self with pubkey_authentication := mergeOpt st.self.pubkey_authentication st.b.pubkey_authentication }, st.b⟩ := by
  cases h : st.b.pubkey_authentication <;> simp [mergeStep12, h, mergeOpt]

/-- Statement 13 assigns `remote_forward` of `self` and leaves `b` alone. -/
theorem mergeStep13_eq (st : MergeSt) :
    mergeStep13 st =
      ⟨{ st.self with remote_forward := mergeOpt st.self.remote_forward st.b.remote_forward }, st.b⟩ := by
  cases h : st.b.remote_forward <;> simp [mergeStep13, h, mergeOpt]

/-- Statement 14 assigns `tcp_keep_alive` of `self` and leaves `b` alone. -/
theorem mergeStep14_eq (st : MergeSt) :
    mergeStep14 st =
      ⟨{ st.self with tcp_keep_alive := mergeOpt st.self.tcp_keep_alive st.b.tcp_keep_alive }, st.b⟩ := by
  cases h : st.b.tcp_keep_alive <;> simp [mergeStep14, h, mergeOpt]

/-- Running the fourteen statements of the merge body leaves `b` intact
and leaves `self` equal to the functional `HostParams.merge`. -/
theorem mergeImpl_eq (st : MergeSt) :
    mergeImpl st = ⟨st.self.merge st.b, st.b⟩ := by
  simp only [mergeImpl, mergeStep1_eq, mergeStep2_eq, mergeStep3_eq, mergeStep4_eq,
    mergeStep5_eq, mergeStep6_eq, mergeStep7_eq, mergeStep8_eq, mergeStep9_eq,
    mergeStep10_eq, mergeStep11_eq, mergeStep12_eq, mergeStep13_eq, mergeStep14_eq]
  rfl

/-- A variant of `sampleHigh` differing only in `host_name`, used in the
field-independence witness. -/
def sampleHigh2 : HostParams :=
  { sampleHigh with host_name := some "alt.example" }

/-! ### The claims -/

/-- C1: for every pair of parameter sets and every field that the
higher-precedence layer sets, after `merge` the receiver field equals the
layer field exactly (deep equality of the stored value, a full
replacement). -/
theorem merge_overrides_set_field (p q : HostParams) (f : ParamField)
    (h : (q.get f).isSome = true) : (p.merge q).get f = q.get f := by
  rw [get_merge]
  cases hq : q.get f with
  | none => rw [hq] at h; exact absurd h (by simp)
  | some v => exact mergeOpt_some_right _ _

/-- C1 witness: `sampleHigh` sets `host_name`, and the merge result takes
it over verbatim. -/
theorem merge_overrides_set_field_witness :
    ((sampleHigh.get .host_name).isSome = true) ∧
    (sampleLow.merge sampleHigh).get .host_name = sampleHigh.get .host_name :=
  ⟨rfl, merge_overrides_set_field sampleLow sampleHigh .host_name rfl⟩

/-- C2: for every pair of parameter sets and every field that the
higher-precedence layer leaves unset, after `merge` the receiver field
equals its pre-merge value. -/
theorem merge_preserves_unset_field (p q : HostParams) (f : ParamField)
    (h : q.get f = none) : (p.merge q).get f = p.get f := by
  rw [get_merge, h]
  exact mergeOpt_none_right _

/-- C2 witness: `sampleHigh` leaves `ciphers` unset, and the merge result
keeps the receiver value for it. -/
theorem merge_preserves_unset_field_witness :
    (sampleHigh.get .ciphers = none) ∧
    (sampleLow.merge sampleHigh).get .ciphers = sampleLow.get .ciphers :=
  ⟨rfl, merge_preserves_unset_field sampleLow sampleHigh .ciphers rfl⟩

/-- C3: the all-unset record is a two-sided identity for `merge`. -/
theorem merge_default_identity (p : HostParams) :
    p.merge HostParams.default = p ∧ HostParams.default.merge p = p := by
  constructor
  · apply eq_of_get_eq
    intro f
    rw [get_merge, get_default]
    exact mergeOpt_none_right _
  · apply eq_of_get_eq
    intro f
    rw [get_merge, get_default]
    exact mergeOpt_none_left _

/-- C4: no reversion — a field that is set before a merge is still set
after it, whatever the incoming layer holds for it. -/
theorem merge_no_reversion (p q : HostParams) (f : ParamField)
    (h : (p.get f).isSome = true) : ((p.merge q).get f).isSome = true := by
  rw [get_merge]
  cases hq : q.get f with
  | none => rw [mergeOpt_none_right]; exact h
  | some v => rw [mergeOpt_some_right]; rfl

/-- C4 witness: `sampleLow` sets `ciphers`, `sampleHigh` does not, and
`ciphers` is still set after the merge. -/
theorem merge_no_reversion_witness :
    ((sampleLow.get .ciphers).isSome = true) ∧
    (((sampleLow.merge sampleHigh).get .ciphers).isSome = true) :=
  ⟨rfl, merge_no_reversion sampleLow sampleHigh .ciphers rfl⟩

/-- C5: merging the same higher-precedence layer twice in a row yields
the same result as merging it once. -/
theorem merge_idempotent_on_repeat (p q : HostParams) :
    (p.merge q).merge q = p.merge q := by
  apply eq_of_get_eq
  intro f
  rw [get_merge, get_merge, mergeOpt_idem]

/-- C6: merge is not commutative — witnessed concretely — and swapping
the operands changes the result whenever both set the same field to
different values. -/
theorem merge_not_commutative :
    (∃ p q : HostParams, p.merge q ≠ q.merge p) ∧
    ∀ (p q : HostParams) (f : ParamField) (v w : FieldVal),
      p.get f = some v → q.get f = some w → v ≠ w → p.merge q ≠ q.merge p := by
  have key : ∀ (p q : HostParams) (f : ParamField) (v w : FieldVal),
      p.get f = some v → q.get f = some w → v ≠ w → p.merge q ≠ q.merge p := by
    intro p q f v w hp hq hvw heq
    have h2 : (p.merge q).get f = (q.merge p).get f := by rw [heq]
    rw [get_merge, get_merge, hp, hq, mergeOpt_some_right, mergeOpt_some_right] at h2
    exact hvw (Option.some.inj h2).symm
  exact ⟨⟨sampleLow, sampleHigh,
    key sampleLow sampleHigh .host_name _ _ rfl rfl (by decide)⟩, key⟩

/-- C6 witness: the two concrete sample layers merge differently in the
two orders. -/
theorem merge_not_commutative_witness :
    sampleLow.merge sampleHigh ≠ sampleHigh.merge sampleLow :=
  merge_not_commutative.2 sampleLow sampleHigh .host_name _ _ rfl rfl (by decide)

/-- C7: field independence — the merged value of a field depends only on
the two operand values of that field, and changing the layer only in one
field changes the result only in that field. -/
theorem merge_field_independent :
    (∀ (p p' q q' : HostParams) (f : ParamField),
      p.get f = p'.get f → q.get f = q'.get f →
      (p.merge q).get f = (p'.merge q').get f) ∧
    (∀ (p q q' : HostParams) (f : ParamField),
      (∀ g : ParamField, g ≠ f → q.get g = q'.get g) →
      ∀ g : ParamField, g ≠ f → (p.merge q).get g = (p.merge q').get g) := by
  constructor
  · intro p p' q q' f hp hq
    rw [get_merge, get_merge, hp, hq]
  · intro p q q' f hq g hg
    rw [get_merge, get_merge, hq g hg]

/-- C7 witness: with the receiver fixed and two layers that differ only
in `host_name`, the merged `compression` field agrees, both by the
two-run reading and by the changed-only-in-F reading. -/
theorem merge_field_independent_witness :
    ((sampleLow.merge sampleHigh).get .compression =
      (sampleLow.merge sampleHigh2).get .compression) ∧
    ((sampleLow.merge sampleHigh).get .compression =
      (sampleLow.merge sampleHigh2).get .compression) :=
  ⟨merge_field_independent.1 sampleLow sampleLow sampleHigh sampleHigh2 .compression rfl rfl,
   merge_field_independent.2 sampleLow sampleHigh sampleHigh2 .host_name
     (by decide) .compression (by decide)⟩

/-- C8: a default-constructed record has every one of its fourteen
fields unset. -/
theorem default_all_unset :
    HostParams.default.bind_address = none ∧
    HostParams.default.bind_interface = none ∧
    HostParams.default.ca_signature_algorithms = none ∧
    HostParams.default.certificate_file = none ∧
    HostParams.default.ciphers = none ∧
    HostParams.default.compression = none ∧
    HostParams.default.connection_attemps = none ∧
    HostParams.default.connect_timeout = none ∧
    HostParams.default.host_name = none ∧
    HostParams.default.mac = none ∧
    HostParams.default.pubkey_accepted_algorithms = none ∧
    HostParams.default.pubkey_authentication = none ∧
    HostParams.default.remote_forward = none ∧
    HostParams.default.tcp_keep_alive = none :=
  ⟨rfl, rfl, rfl, rfl, rfl, rfl, rfl, rfl, rfl, rfl, rfl, rfl, rfl, rfl⟩

/-- C9: running the body of `merge` on the state `⟨self, b⟩` leaves the
argument `b` exactly as it was — merge mutates only the receiver. -/
theorem merge_leaves_other_unchanged (s b : HostParams) :
    (mergeImpl ⟨s, b⟩).b = b := by
  rw [mergeImpl_eq]

/-- C10: merge is associative — folding in two layers one after the
other equals folding in the single pre-combined layer. -/
theorem merge_assoc (p q r : HostParams) :
    (p.merge q).merge r = p.merge (q.merge r) := by
  apply eq_of_get_eq
  intro f
  rw [get_merge, get_merge, get_merge, get_merge, mergeOpt_assoc]
